import Mathlib

/-!
Shallow embedding of the MessagePack codec in src/src/msgpack.hpp
(namespace packing / msgpack): the canonical packer primitives
(msgpack_packer::pack(long), pack(const char*, size_t),
packArrayHeader, packMapHeader) and the canonical recursive-descent
unpacker (msgpack_unpacker::unpack together with the shared
unpacker::read / unpackArray / unpackMap / unpackRaw helpers),
plus the Object value model and its checked accessors
(Object::getAs / Object::getValue).

Bytes are modelled as Nat values below 256; multi-byte integers are
written and read in little-endian order, matching the self-consistent
host-native order used by packer::write<T> and unpacker::read<T> on the
target platform.  Allocation of Object nodes is tracked by an explicit
counter so that ownership/leak behaviour on the failure path is
observable: the unpacker never deletes a node while decoding, so the
counter carried by an error is the number of Object nodes that the
C++ code has allocated (and, on a throw, leaked) up to that point.
-/

namespace Msgpack

/-- Wire type categories, mirroring enum object_type in msgpack.hpp. -/
inductive object_type where
  | NIL
  | BOOLEAN
  | CHAR
  | SHORT
  | INTEGER
  | LONG
  | UCHAR
  | USHORT
  | UINTEGER
  | ULONG
  | FLOAT
  | DOUBLE
  | RAW
  | ARRAY
  | MAP
deriving DecidableEq

/-- Decoded value tree (class Object and its ObjectImpl specializations).
Array elements and map keys/values are Option Obj because unpack() can
return a null Object pointer, which unpackArray/unpackMap store as-is.
Float and double payloads are kept as their raw bit patterns. -/
inductive Obj where
  | nil
  | boolean (b : Bool)
  | char (v : Int)
  | short (v : Int)
  | integer (v : Int)
  | long (v : Int)
  | uchar (v : Nat)
  | ushort (v : Nat)
  | uinteger (v : Nat)
  | ulong (v : Nat)
  | float (bits : Nat)
  | double (bits : Nat)
  | raw (bytes : List Nat)
  | array (elems : List (Option Obj))
  | map (entries : List (Option Obj × Option Obj))

/-- Failure conditions of a decode.  endOfStream is the unpack_exception
thrown by unpacker::read when the stream runs out; invalidFormat is the
"Unexpected data type" exception thrown by the generic
packing::unpacker::unpack default branch (the canonical msgpack
unpacker never raises it); fuel marks exhaustion of the artificial
recursion bound of the embedding and corresponds to no source
behaviour (every theorem below supplies sufficient fuel). -/
inductive UErr where
  | endOfStream
  | invalidFormat
  | fuel
deriving DecidableEq

/-- Result of one unpack call: either an error paired with the number of
Object nodes allocated (and leaked) before the throw, or the returned
Object pointer (none models a null pointer return), the remaining
stream, and the number of Object nodes allocated so far. -/
abbrev URes := Except (UErr × Nat) (Option Obj × List Nat × Nat)

/-- unpacker::read<unsigned char>: one byte from the stream, or the
end-of-stream failure carrying the current allocation count. -/
def readByteE (s : List Nat) (a : Nat) : Except (UErr × Nat) (Nat × List Nat) :=
  match s with
  | [] => .error (.endOfStream, a)
  | b :: r => .ok (b, r)

/-- Sequential byte reads (unpacker::read of a w-byte value, and the
per-byte loop of unpackRaw): fails with endOfStream as soon as a needed
byte is missing. -/
def readBytesE : Nat → List Nat → Except UErr (List Nat × List Nat)
  | 0, s => .ok ([], s)
  | _ + 1, [] => .error .endOfStream
  | n + 1, b :: s =>
    match readBytesE n s with
    | .error e => .error e
    | .ok (bs, rest) => .ok (b :: bs, rest)

/-- Assemble a little-endian byte list into a Nat. -/
def leNat (bs : List Nat) : Nat :=
  bs.foldr (fun b acc => b + 256 * acc) 0

/-- The w low-order bytes of n, little-endian (packer::write<T> of a
w-byte integer: narrower conversions keep the low bits). -/
def leBytes : Nat → Nat → List Nat
  | 0, _ => []
  | w + 1, n => (n % 256) :: leBytes w (n / 256)

/-- Reinterpret the low w bits as a two's-complement signed value
(reads into int8_t/int16_t/int32_t/int64_t locals). -/
def toSigned (w : Nat) (n : Nat) : Int :=
  if n < 2 ^ (w - 1) then (n : Int) else (n : Int) - 2 ^ w

/-- unpacker::read<T> of a w-byte integer: consume w bytes and assemble
them, or fail with endOfStream carrying the allocation count. -/
def readW (w : Nat) (s : List Nat) (a : Nat) : Except (UErr × Nat) (Nat × List Nat) :=
  match readBytesE w s with
  | .error e => .error (e, a)
  | .ok (bs, rest) => .ok (leNat bs, rest)

/-- unpacker::unpackRaw(int size): a negative size returns the null
Object pointer; otherwise size bytes are read one by one (failing at
the first missing byte) and a fresh Raw node is allocated. -/
def munpackRaw (size : Int) (s : List Nat) (a : Nat) : URes :=
  if size < 0 then .ok (none, s, a)
  else
    match readBytesE size.toNat s with
    | .error e => .error (e, a)
    | .ok (bs, rest) => .ok (some (.raw bs), rest, a + 1)

/-- The element loop of unpacker::unpackArray: run the element decoder
count times, collecting the returned (possibly null) children in read
order; an element failure propagates immediately. -/
def munpackLoop (dec : List Nat → Nat → URes) :
    Nat → List Nat → Nat → Except (UErr × Nat) (List (Option Obj) × List Nat × Nat)
  | 0, s, a => .ok ([], s, a)
  | n + 1, s, a =>
    match dec s a with
    | .error e => .error e
    | .ok (o, s1, a1) =>
      match munpackLoop dec n s1 a1 with
      | .error e => .error e
      | .ok (os, s2, a2) => .ok (o :: os, s2, a2)

/-- The pair loop of unpacker::unpackMap: key first, then value. -/
def munpackMapLoop (dec : List Nat → Nat → URes) :
    Nat → List Nat → Nat → Except (UErr × Nat) (List (Option Obj × Option Obj) × List Nat × Nat)
  | 0, s, a => .ok ([], s, a)
  | n + 1, s, a =>
    match dec s a with
    | .error e => .error e
    | .ok (k, s1, a1) =>
      match dec s1 a1 with
      | .error e => .error e
      | .ok (v, s2, a2) =>
        match munpackMapLoop dec n s2 a2 with
        | .error e => .error e
        | .ok (ps, s3, a3) => .ok ((k, v) :: ps, s3, a3)

/-- unpacker::unpackArray(int size): a negative size returns the null
Object pointer before any allocation; otherwise an Array node is
allocated first and size children are decoded into it. -/
def munpackArray (dec : List Nat → Nat → URes) (size : Int) (s : List Nat) (a : Nat) : URes :=
  if size < 0 then .ok (none, s, a)
  else
    match munpackLoop dec size.toNat s (a + 1) with
    | .error e => .error e
    | .ok (elems, s1, a1) => .ok (some (.array elems), s1, a1)

/-- unpacker::unpackMap(int size): as unpackArray but with key/value
pairs. -/
def munpackMap (dec : List Nat → Nat → URes) (size : Int) (s : List Nat) (a : Nat) : URes :=
  if size < 0 then .ok (none, s, a)
  else
    match munpackMapLoop dec size.toNat s (a + 1) with
    | .error e => .error e
    | .ok (entries, s1, a1) => .ok (some (.map entries), s1, a1)

/-- msgpack_unpacker::unpack, the canonical single-value decode.

The dispatch follows the source line by line: the switch over the exact
tag byte values, then the fix-raw / negative-fixnum / fix-array /
fix-map mask tests, then the positive-fixnum range test, and finally
the null-pointer return for every remaining (reserved) byte.

iVal0 models the value of the uninitialized local variable iVal at the
MP_INT32 (0xd2) branch: the source reads the four payload bytes into
uiVal but constructs the Int node from iVal, which no read has
assigned, so the node's value is whatever iVal happened to hold. -/
def munpack (iVal0 : Int) : Nat → List Nat → Nat → URes
  | 0, _, a => .error (.fuel, a)
  | fuel + 1, s, a =>
    match readByteE s a with
    | .error e => .error e
    | .ok (value, s1) =>
      if value = 0xc0 then .ok (some .nil, s1, a + 1)
      else if value = 0xc2 then .ok (some (.boolean false), s1, a + 1)
      else if value = 0xc3 then .ok (some (.boolean true), s1, a + 1)
      else if value = 0xca then
        match readW 4 s1 a with
        | .error e => .error e
        | .ok (n, s2) => .ok (some (.float n), s2, a + 1)
      else if value = 0xcb then
        match readW 8 s1 a with
        | .error e => .error e
        | .ok (n, s2) => .ok (some (.double n), s2, a + 1)
      else if value = 0xcc then
        match readW 1 s1 a with
        | .error e => .error e
        | .ok (n, s2) => .ok (some (.uchar n), s2, a + 1)
      else if value = 0xcd then
        match readW 2 s1 a with
        | .error e => .error e
        | .ok (n, s2) => .ok (some (.ushort n), s2, a + 1)
      else if value = 0xce then
        match readW 4 s1 a with
        | .error e => .error e
        | .ok (n, s2) => .ok (some (.uinteger n), s2, a + 1)
      else if value = 0xcf then
        match readW 8 s1 a with
        | .error e => .error e
        | .ok (n, s2) => .ok (some (.ulong n), s2, a + 1)
      else if value = 0xd0 then
        match readW 1 s1 a with
        | .error e => .error e
        | .ok (n, s2) => .ok (some (.char (toSigned 8 n)), s2, a + 1)
      else if value = 0xd1 then
        match readW 2 s1 a with
        | .error e => .error e
        | .ok (n, s2) => .ok (some (.short (toSigned 16 n)), s2, a + 1)
      else if value = 0xd2 then
        match readW 4 s1 a with
        | .error e => .error e
        | .ok (_, s2) => .ok (some (.integer iVal0), s2, a + 1)
      else if value = 0xd3 then
        match readW 8 s1 a with
        | .error e => .error e
        | .ok (n, s2) => .ok (some (.long (toSigned 64 n)), s2, a + 1)
      else if value = 0xdc then
        match readW 2 s1 a with
        | .error e => .error e
        | .ok (n, s2) => munpackArray (munpack iVal0 fuel) (toSigned 16 n) s2 a
      else if value = 0xdd then
        match readW 4 s1 a with
        | .error e => .error e
        | .ok (n, s2) => munpackArray (munpack iVal0 fuel) (toSigned 32 n) s2 a
      else if value = 0xde then
        match readW 2 s1 a with
        | .error e => .error e
        | .ok (n, s2) => munpackMap (munpack iVal0 fuel) (toSigned 16 n) s2 a
      else if value = 0xdf then
        match readW 4 s1 a with
        | .error e => .error e
        | .ok (n, s2) => munpackMap (munpack iVal0 fuel) (toSigned 32 n) s2 a
      else if value = 0xda then
        match readW 2 s1 a with
        | .error e => .error e
        | .ok (n, s2) => munpackRaw (n : Int) s2 a
      else if value = 0xdb then
        match readW 4 s1 a with
        | .error e => .error e
        | .ok (n, s2) => munpackRaw (toSigned 32 n) s2 a
      else if value &&& 0xe0 = 0xa0 then
        munpackRaw ((value - 0xa0 : Nat) : Int) s1 a
      else if value &&& 0xe0 = 0xe0 then
        .ok (some (.integer (((value &&& 0x1f : Nat) : Int) - 32)), s1, a + 1)
      else if value &&& 0xf0 = 0x90 then
        munpackArray (munpack iVal0 fuel) ((value - 0x90 : Nat) : Int) s1 a
      else if value &&& 0xf0 = 0x80 then
        munpackMap (munpack iVal0 fuel) ((value - 0x80 : Nat) : Int) s1 a
      else if value ≤ 127 then
        .ok (some (.char (value : Int)), s1, a + 1)
      else
        .ok (none, s1, a)

/-- msgpack_packer::pack(long): the canonical integer encoding.  Each
write<T> stores the value converted to T, i.e. its low bytes, in
little-endian order; the fixnum branches emit char(value) | MP_FIXNUM
and char(value) | MP_NEGATIVE_FIXNUM respectively. -/
def encodeLong (value : Int) : List Nat :=
  if 0 ≤ value then
    if value ≤ 0x7f then [(value % 256).toNat]
    else if value ≤ 0xff then [0xcc, (value % 256).toNat]
    else if value ≤ 0xffff then 0xcd :: leBytes 2 (value % 65536).toNat
    else if value ≤ 0xffffffff then 0xce :: leBytes 4 (value % 4294967296).toNat
    else 0xcf :: leBytes 8 (value % 18446744073709551616).toNat
  else
    if -32 ≤ value then [(value % 256).toNat ||| 0xe0]
    else if -128 ≤ value then [0xd0, (value % 256).toNat]
    else if -32768 ≤ value then 0xd1 :: leBytes 2 (value % 65536).toNat
    else if -2147483648 ≤ value then 0xd2 :: leBytes 4 (value % 4294967296).toNat
    else 0xd3 :: leBytes 8 (value % 18446744073709551616).toNat

/-- Header bytes emitted by msgpack_packer::pack(const char*, size_t)
before the payload: fix-raw with the length in the low 5 bits, or a
raw16/raw32 tag followed by the length as written by write<short> /
write<int> (low bytes, little-endian). -/
def encodeRawHeader (length : Nat) : List Nat :=
  if length ≤ 0x1f then [(length % 256) ||| 0xa0]
  else if length ≤ 0xffff then 0xda :: leBytes 2 length
  else 0xdb :: leBytes 4 length

/-- msgpack_packer::packArrayHeader. -/
def encodeArrayHeader (length : Nat) : List Nat :=
  if length ≤ 0xf then [(length % 256) ||| 0x90]
  else if length ≤ 0xffff then 0xdc :: leBytes 2 length
  else 0xdd :: leBytes 4 length

/-- msgpack_packer::packMapHeader. -/
def encodeMapHeader (length : Nat) : List Nat :=
  if length ≤ 0xf then [(length % 256) ||| 0x80]
  else if length ≤ 0xffff then 0xde :: leBytes 2 length
  else 0xdf :: leBytes 4 length

/-- msgpack_packer::pack(const char*, size_t): header then the payload
bytes. -/
def encodeRaw (data : List Nat) : List Nat :=
  encodeRawHeader data.length ++ data

/-- The immutable tag of an Object (Object::getType / the type_ field
set by each ObjectImpl constructor). -/
def tagOf : Obj → object_type
  | .nil => .NIL
  | .boolean _ => .BOOLEAN
  | .char _ => .CHAR
  | .short _ => .SHORT
  | .integer _ => .INTEGER
  | .long _ => .LONG
  | .uchar _ => .UCHAR
  | .ushort _ => .USHORT
  | .uinteger _ => .UINTEGER
  | .ulong _ => .ULONG
  | .float _ => .FLOAT
  | .double _ => .DOUBLE
  | .raw _ => .RAW
  | .array _ => .ARRAY
  | .map _ => .MAP

/-- Failure condition of a typed accessor: the std::bad_cast thrown by
Object::getAs when the requested object_type differs from the tag. -/
inductive AccessErr where
  | badCast
deriving DecidableEq

/-- The C++ types for which a type_cast specialization exists, i.e. the
types usable with Object::getValue<T> / Object::getAs<T>. -/
inductive cxx_type where
  | bool_t
  | char_t
  | int16_t
  | int32_t
  | int64_t
  | uchar_t
  | uint16_t
  | uint32_t
  | uint64_t
  | float_t
  | double_t
  | ucharp_t
  | ucvec_t
  | string_t
  | wstring_t
deriving DecidableEq

/-- The type_cast table (TYPE_CAST specializations): the object_type id
associated with each C++ type.  The byte-buffer and string types all
bridge to RAW. -/
def type_cast : cxx_type → object_type
  | .bool_t => .BOOLEAN
  | .char_t => .CHAR
  | .int16_t => .SHORT
  | .int32_t => .INTEGER
  | .int64_t => .LONG
  | .uchar_t => .UCHAR
  | .uint16_t => .USHORT
  | .uint32_t => .UINTEGER
  | .uint64_t => .ULONG
  | .float_t => .FLOAT
  | .double_t => .DOUBLE
  | .ucharp_t => .RAW
  | .ucvec_t => .RAW
  | .string_t => .RAW
  | .wstring_t => .RAW

/-- Object::getAs<type>: throws std::bad_cast when the requested
object_type differs from the Object's tag, and otherwise returns the
object (whose payload the cast operator then hands out unchanged). -/
def getAs (t : object_type) (o : Obj) : Except AccessErr Obj :=
  if t ≠ tagOf o then .error .badCast else .ok o

/-- Object::getValue<T>: looks up type_cast<T>::id and delegates to
getAs. -/
def getValue (T : cxx_type) (o : Obj) : Except AccessErr Obj :=
  getAs (type_cast T) o

/-- A positive-fixnum byte decodes to a Char node holding the byte. -/
theorem munpack_fixnum (junk : Int) (fuel b a : Nat) (rest : List Nat) (hb : b ≤ 127) :
    munpack junk (fuel + 1) (b :: rest) a = .ok (some (.char (b : Int)), rest, a + 1) := by
  have h1 : b &&& 0xe0 ≤ b := Nat.and_le_left
  have h2 : b &&& 0xf0 ≤ b := Nat.and_le_left
  simp only [munpack, readByteE]
  repeat rw [if_neg (by omega)]
  rw [if_pos hb]

/-- A negative-fixnum byte decodes to an Int node holding the low five
bits minus 32. -/
theorem munpack_negfixnum (junk : Int) (fuel b a : Nat) (rest : List Nat)
    (hb1 : 224 ≤ b) (hb2 : b ≤ 255) :
    munpack junk (fuel + 1) (b :: rest) a =
      .ok (some (.integer (((b &&& 0x1f : Nat) : Int) - 32)), rest, a + 1) := by
  interval_cases b <;> rfl

/-- A fix-raw tag dispatches to unpackRaw with the embedded length. -/
theorem munpack_fixraw (junk : Int) (fuel n a : Nat) (s : List Nat) (hn : n ≤ 31) :
    munpack junk (fuel + 1) ((0xa0 + n) :: s) a = munpackRaw (n : Int) s a := by
  interval_cases n <;> rfl

/-- A fix-array tag dispatches to unpackArray with the embedded count. -/
theorem munpack_fixarray (junk : Int) (fuel n a : Nat) (s : List Nat) (hn : n ≤ 15) :
    munpack junk (fuel + 1) ((0x90 + n) :: s) a =
      munpackArray (munpack junk fuel) (n : Int) s a := by
  interval_cases n <;> rfl

/-- A fix-map tag dispatches to unpackMap with the embedded count. -/
theorem munpack_fixmap (junk : Int) (fuel n a : Nat) (s : List Nat) (hn : n ≤ 15) :
    munpack junk (fuel + 1) ((0x80 + n) :: s) a =
      munpackMap (munpack junk fuel) (n : Int) s a := by
  interval_cases n <;> rfl

/-- Reading more bytes than the stream holds fails with endOfStream. -/
theorem readBytesE_short : ∀ (n : Nat) (s : List Nat), s.length < n →
    readBytesE n s = .error .endOfStream := by
  intro n
  induction n with
  | zero => intro s h; omega
  | succ n ih =>
    intro s h
    cases s with
    | nil => rfl
    | cons b tl =>
      simp only [readBytesE]
      rw [ih tl (by simpa using h)]

/-- Decoding more elements than the stream holds, when every available
byte is a positive fixnum, fails with endOfStream after allocating one
node per element already decoded. -/
theorem munpackLoop_fixnum_short (junk : Int) (fuel : Nat) :
    ∀ (elems : List Nat) (m a : Nat), (∀ b ∈ elems, b ≤ 127) → elems.length < m →
      munpackLoop (munpack junk (fuel + 1)) m elems a =
        .error (.endOfStream, a + elems.length) := by
  intro elems
  induction elems with
  | nil =>
    intro m a _ hm
    obtain ⟨m', rfl⟩ : ∃ m', m = m' + 1 := ⟨m - 1, by omega⟩
    simp [munpackLoop, munpack, readByteE]
  | cons b tl ih =>
    intro m a hb hm
    obtain ⟨m', rfl⟩ : ∃ m', m = m' + 1 := ⟨m - 1, by omega⟩
    have hb0 : b ≤ 127 := hb b (by simp)
    simp only [munpackLoop]
    rw [munpack_fixnum junk fuel b a tl hb0]
    simp only [ih m' (a + 1) (fun x hx => hb x (by simp [hx])) (by simpa using hm),
      List.length_cons, Except.error.injEq, Prod.mk.injEq]
    exact ⟨trivial, by omega⟩

/-- The array16 tag reads a signed 16-bit count and dispatches to
unpackArray. -/
theorem munpack_array16 (junk : Int) (fuel a : Nat) (s : List Nat) :
    munpack junk (fuel + 1) (0xdc :: s) a =
      (match readW 2 s a with
       | .error e => .error e
       | .ok (n, s2) => munpackArray (munpack junk fuel) (toSigned 16 n) s2 a) := rfl

/-- The array32 tag reads a signed 32-bit count and dispatches to
unpackArray. -/
theorem munpack_array32 (junk : Int) (fuel a : Nat) (s : List Nat) :
    munpack junk (fuel + 1) (0xdd :: s) a =
      (match readW 4 s a with
       | .error e => .error e
       | .ok (n, s2) => munpackArray (munpack junk fuel) (toSigned 32 n) s2 a) := rfl

/-- The map16 tag reads a signed 16-bit count and dispatches to
unpackMap. -/
theorem munpack_map16 (junk : Int) (fuel a : Nat) (s : List Nat) :
    munpack junk (fuel + 1) (0xde :: s) a =
      (match readW 2 s a with
       | .error e => .error e
       | .ok (n, s2) => munpackMap (munpack junk fuel) (toSigned 16 n) s2 a) := rfl

/-- The map32 tag reads a signed 32-bit count and dispatches to
unpackMap. -/
theorem munpack_map32 (junk : Int) (fuel a : Nat) (s : List Nat) :
    munpack junk (fuel + 1) (0xdf :: s) a =
      (match readW 4 s a with
       | .error e => .error e
       | .ok (n, s2) => munpackMap (munpack junk fuel) (toSigned 32 n) s2 a) := rfl

/-- The raw32 tag reads a signed 32-bit length and dispatches to
unpackRaw. -/
theorem munpack_raw32 (junk : Int) (fuel a : Nat) (s : List Nat) :
    munpack junk (fuel + 1) (0xdb :: s) a =
      (match readW 4 s a with
       | .error e => .error e
       | .ok (n, s2) => munpackRaw (toSigned 32 n) s2 a) := rfl

/-- C1.  The round-trip claim fails on the code: pack(long) encodes
-32769 and -2^31 through the MP_INT32 form, but the unpacker's
MP_INT32 branch reads the four payload bytes into uiVal and then
constructs the Int node from the uninitialized local iVal, so the
decoded value is whatever iVal held (modelled by junk) and is
independent of the encoded bytes.  decode(encode(v)) therefore does
not recover v on the int32 promotion range. -/
theorem int32_decode_ignores_payload (junk : Int) :
    encodeLong (-32769) = [0xd2, 0xff, 0x7f, 0xff, 0xff] ∧
    encodeLong (-2147483648) = [0xd2, 0x00, 0x00, 0x00, 0x80] ∧
    munpack junk 6 (encodeLong (-32769)) 0 = .ok (some (.integer junk), [], 1) ∧
    munpack junk 6 (encodeLong (-2147483648)) 0 = .ok (some (.integer junk), [], 1) ∧
    Obj.integer 0 ≠ Obj.integer (-32769) := by
  refine ⟨rfl, rfl, rfl, rfl, ?_⟩
  intro h
  injection h with h'
  exact absurd h' (by decide)

/-- C2.  msgpack_packer::pack(long) selects exactly the size classes of
the claim: fixnum for 0..127, negative fixnum (value in the low 5 bits
under the 0xe0 mask) for -32..-1, then the smallest sufficient
uint8/16/32/64 form for larger non-negative values and the smallest
sufficient int8/16/32/64 form for more negative values, with signed
boundaries at -33, -129, -32769 and below -(2^31). -/
theorem encodeLong_size_classes (v : Int) :
    (0 ≤ v → v ≤ 127 → encodeLong v = [v.toNat]) ∧
    (-32 ≤ v → v ≤ -1 → encodeLong v = [0xe0 ||| (v % 32).toNat]) ∧
    (128 ≤ v → v ≤ 255 → encodeLong v = [0xcc, v.toNat]) ∧
    (256 ≤ v → v ≤ 65535 → encodeLong v = 0xcd :: leBytes 2 v.toNat) ∧
    (65536 ≤ v → v ≤ 4294967295 → encodeLong v = 0xce :: leBytes 4 v.toNat) ∧
    (4294967296 ≤ v → encodeLong v = 0xcf :: leBytes 8 (v % 18446744073709551616).toNat) ∧
    (-128 ≤ v → v ≤ -33 → encodeLong v = [0xd0, (v % 256).toNat]) ∧
    (-32768 ≤ v → v ≤ -129 → encodeLong v = 0xd1 :: leBytes 2 (v % 65536).toNat) ∧
    (-2147483648 ≤ v → v ≤ -32769 → encodeLong v = 0xd2 :: leBytes 4 (v % 4294967296).toNat) ∧
    (v ≤ -2147483649 → encodeLong v = 0xd3 :: leBytes 8 (v % 18446744073709551616).toNat) := by
  refine ⟨?_, ?_, ?_, ?_, ?_, ?_, ?_, ?_, ?_, ?_⟩
  · intro h1 h2
    unfold encodeLong
    rw [if_pos (by omega), if_pos (by omega)]
    have hv : v % 256 = v := by omega
    rw [hv]
  · intro h1 h2
    interval_cases v <;> decide
  · intro h1 h2
    unfold encodeLong
    rw [if_pos (by omega), if_neg (by omega), if_pos (by omega)]
    have hv : v % 256 = v := by omega
    rw [hv]
  · intro h1 h2
    unfold encodeLong
    rw [if_pos (by omega), if_neg (by omega), if_neg (by omega), if_pos (by omega)]
    have hv : v % 65536 = v := by omega
    rw [hv]
  · intro h1 h2
    unfold encodeLong
    rw [if_pos (by omega), if_neg (by omega), if_neg (by omega), if_neg (by omega),
      if_pos (by omega)]
    have hv : v % 4294967296 = v := by omega
    rw [hv]
  · intro h1
    unfold encodeLong
    rw [if_pos (by omega), if_neg (by omega), if_neg (by omega), if_neg (by omega),
      if_neg (by omega)]
  · intro h1 h2
    unfold encodeLong
    rw [if_neg (by omega), if_neg (by omega), if_pos (by omega)]
  · intro h1 h2
    unfold encodeLong
    rw [if_neg (by omega), if_neg (by omega), if_neg (by omega), if_pos (by omega)]
  · intro h1 h2
    unfold encodeLong
    rw [if_neg (by omega), if_neg (by omega), if_neg (by omega), if_neg (by omega),
      if_pos (by omega)]
  · intro h1
    unfold encodeLong
    rw [if_neg (by omega), if_neg (by omega), if_neg (by omega), if_neg (by omega),
      if_neg (by omega)]

/-- Witness for encodeLong_size_classes at concrete inputs. -/
theorem encodeLong_size_classes_witness :
    encodeLong (-100) = [0xd0, ((-100 : Int) % 256).toNat] ∧
    encodeLong 200 = [0xcc, (200 : Int).toNat] ∧
    encodeLong (-20) = [0xe0 ||| ((-20 : Int) % 32).toNat] :=
  ⟨(encodeLong_size_classes (-100)).2.2.2.2.2.2.1 (by decide) (by decide),
   (encodeLong_size_classes 200).2.2.1 (by decide) (by decide),
   (encodeLong_size_classes (-20)).2.1 (by decide) (by decide)⟩

/-- C3.  The canonical raw/array/map headers select exactly the claimed
size classes: fix forms embed the length in the tag's low bits up to
31 (raw) or 15 (array/map), 16-bit headers run up to 65535, and
32-bit headers take over from 65536. -/
theorem header_size_classes (n : Nat) :
    (n ≤ 31 → encodeRawHeader n = [0xa0 ||| n]) ∧
    (32 ≤ n → n ≤ 65535 → encodeRawHeader n = 0xda :: leBytes 2 n) ∧
    (65536 ≤ n → encodeRawHeader n = 0xdb :: leBytes 4 n) ∧
    (n ≤ 15 → encodeArrayHeader n = [0x90 ||| n]) ∧
    (16 ≤ n → n ≤ 65535 → encodeArrayHeader n = 0xdc :: leBytes 2 n) ∧
    (65536 ≤ n → encodeArrayHeader n = 0xdd :: leBytes 4 n) ∧
    (n ≤ 15 → encodeMapHeader n = [0x80 ||| n]) ∧
    (16 ≤ n → n ≤ 65535 → encodeMapHeader n = 0xde :: leBytes 2 n) ∧
    (65536 ≤ n → encodeMapHeader n = 0xdf :: leBytes 4 n) := by
  refine ⟨?_, ?_, ?_, ?_, ?_, ?_, ?_, ?_, ?_⟩
  · intro h1
    unfold encodeRawHeader
    rw [if_pos (by omega)]
    have hv : n % 256 = n := by omega
    rw [hv, Nat.lor_comm]
  · intro h1 h2
    unfold encodeRawHeader
    rw [if_neg (by omega), if_pos (by omega)]
  · intro h1
    unfold encodeRawHeader
    rw [if_neg (by omega), if_neg (by omega)]
  · intro h1
    unfold encodeArrayHeader
    rw [if_pos (by omega)]
    have hv : n % 256 = n := by omega
    rw [hv, Nat.lor_comm]
  · intro h1 h2
    unfold encodeArrayHeader
    rw [if_neg (by omega), if_pos (by omega)]
  · intro h1
    unfold encodeArrayHeader
    rw [if_neg (by omega), if_neg (by omega)]
  · intro h1
    unfold encodeMapHeader
    rw [if_pos (by omega)]
    have hv : n % 256 = n := by omega
    rw [hv, Nat.lor_comm]
  · intro h1 h2
    unfold encodeMapHeader
    rw [if_neg (by omega), if_pos (by omega)]
  · intro h1
    unfold encodeMapHeader
    rw [if_neg (by omega), if_neg (by omega)]

/-- Witness for header_size_classes at concrete inputs. -/
theorem header_size_classes_witness :
    encodeRawHeader 31 = [0xa0 ||| 31] ∧
    encodeRawHeader 32 = 0xda :: leBytes 2 32 ∧
    encodeArrayHeader 16 = 0xdc :: leBytes 2 16 ∧
    encodeMapHeader 65536 = 0xdf :: leBytes 4 65536 :=
  ⟨(header_size_classes 31).1 (by decide),
   (header_size_classes 32).2.1 (by decide) (by decide),
   (header_size_classes 16).2.2.2.2.1 (by decide) (by decide),
   (header_size_classes 65536).2.2.2.2.2.2.2.2 (by decide)⟩

/-- C4 counterexample.  On a reserved tag byte (0xc1, 0xc4..0xc9) the
canonical decode returns the null Object sentinel, not an
InvalidFormat (nor any other) error. -/
theorem reserved_byte_returns_null_not_error :
    munpack 0 1 [0xc1] 0 = .ok (none, [], 0) ∧
    munpack 0 1 [0xc4] 0 = .ok (none, [], 0) ∧
    munpack 0 1 [0xc9] 0 = .ok (none, [], 0) ∧
    munpack 0 1 [0xc1] 0 ≠ .error (.invalidFormat, 0) ∧
    munpack 0 1 [0xc1] 0 ≠ .error (.endOfStream, 0) := by
  refine ⟨rfl, rfl, rfl, ?_, ?_⟩ <;>
    · intro h
      rw [show munpack 0 1 [0xc1] 0 = .ok (none, ([] : List Nat), 0) from rfl] at h
      exact Except.noConfusion h

/-- C4 amended.  For every reserved first byte 0xc1 or 0xc4..0xc9 the
canonical decode consumes just that byte and returns the null Object
sentinel (no value produced, no error signalled, nothing allocated). -/
theorem reserved_byte_null_sentinel (junk : Int) (fuel b : Nat) (rest : List Nat)
    (hb : b = 0xc1 ∨ (0xc4 ≤ b ∧ b ≤ 0xc9)) :
    munpack junk (fuel + 1) (b :: rest) 0 = .ok (none, rest, 0) := by
  rcases hb with rfl | ⟨h1, h2⟩
  · rfl
  · interval_cases b <;> rfl

/-- Witness for reserved_byte_null_sentinel at byte 0xc1. -/
theorem reserved_byte_null_sentinel_witness :
    munpack 0 1 (0xc1 :: [0xaa]) 0 = .ok (none, [0xaa], 0) :=
  reserved_byte_null_sentinel 0 0 0xc1 [0xaa] (Or.inl rfl)

/-- C5.  A declared length or count larger than the available bytes
fails with endOfStream at the read that runs out: a fix-raw payload
shorter than its declared length, the spec's raw-16 example of ten
declared bytes with only three present, and a fix-array of two
elements with only one present (the error carries the two nodes
allocated before the missing second element was needed). -/
theorem truncated_payload_end_of_stream (junk : Int) (fuel n : Nat) (payload : List Nat)
    (hn : n ≤ 31) (hshort : payload.length < n) :
    munpack junk (fuel + 1) ((0xa0 + n) :: payload) 0 = .error (.endOfStream, 0) ∧
    munpack junk (fuel + 1) [0xda, 10, 0, 1, 2, 3] 0 = .error (.endOfStream, 0) ∧
    munpack junk (fuel + 2) [0x92, 0x05] 0 = .error (.endOfStream, 2) := by
  refine ⟨?_, rfl, rfl⟩
  rw [munpack_fixraw junk fuel n 0 payload hn]
  simp only [munpackRaw, Int.toNat_natCast]
  rw [if_neg (by omega), readBytesE_short n payload hshort]

/-- Witness for truncated_payload_end_of_stream: fix-raw declaring 10
bytes with only 3 available. -/
theorem truncated_payload_end_of_stream_witness :
    munpack 0 1 ((0xa0 + 10) :: [1, 2, 3]) 0 = .error (.endOfStream, 0) ∧
    munpack 0 1 [0xda, 10, 0, 1, 2, 3] 0 = .error (.endOfStream, 0) ∧
    munpack 0 2 [0x92, 0x05] 0 = .error (.endOfStream, 2) :=
  truncated_payload_end_of_stream 0 0 10 [1, 2, 3] (by decide) (by decide)

/-- C6 counterexample.  A fix-array of three declared elements whose
stream ends after two children fails with endOfStream while three
Object nodes (the Array and both decoded children) are still
allocated: nothing is released before the error propagates. -/
theorem failed_decode_leaks_allocated_nodes :
    munpack 0 3 [0x93, 0x01, 0x02] 0 = .error (.endOfStream, 3) ∧ (3 : Nat) ≠ 0 :=
  ⟨rfl, by decide⟩

/-- C6 amended.  A failed container decode propagates the error without
returning any partial tree, but the Object nodes already allocated for
the in-progress decode are not released: the allocation count carried
by the error equals one (the Array node) plus one per child decoded
before the failure, and is never zero. -/
theorem failed_decode_leak_count (junk : Int) (fuel n : Nat) (elems : List Nat)
    (h1 : ∀ b ∈ elems, b ≤ 127) (h2 : elems.length < n) (h3 : n ≤ 15) :
    munpack junk (fuel + 2) ((0x90 + n) :: elems) 0 =
      .error (.endOfStream, elems.length + 1) ∧ elems.length + 1 ≠ 0 := by
  refine ⟨?_, by omega⟩
  have hf : fuel + 2 = (fuel + 1) + 1 := rfl
  rw [hf, munpack_fixarray junk (fuel + 1) n 0 elems h3]
  simp only [munpackArray, Int.toNat_natCast]
  rw [if_neg (by omega), munpackLoop_fixnum_short junk fuel elems n 1 h1 h2,
    Nat.add_comm 1 elems.length]

/-- Witness for failed_decode_leak_count: fix-array of two declared
elements with one fixnum available leaks two nodes. -/
theorem failed_decode_leak_count_witness :
    munpack 0 2 ((0x90 + 2) :: [7]) 0 = .error (.endOfStream, 2) ∧ (2 : Nat) ≠ 0 := by
  have h := failed_decode_leak_count 0 0 2 [7] (by decide) (by decide) (by decide)
  simpa using h

/-- C7.  Object::getValue succeeds exactly when the requested type's
type_cast id matches the Object's tag (including the string and byte
buffer types bridging to RAW), and on any mismatch fails with the
bad_cast condition; a successful read hands back the object's own
payload unchanged, never a reinterpretation.  In particular a Boolean
read of a decoded Int fails. -/
theorem getValue_type_checked (T : cxx_type) (o : Obj) :
    (getValue T o = .ok o ↔ type_cast T = tagOf o) ∧
    (type_cast T ≠ tagOf o → getValue T o = .error .badCast) ∧
    (∀ v : Int, getValue .bool_t (.integer v) = .error .badCast) ∧
    (∀ bs : List Nat, getValue .string_t (.raw bs) = .ok (.raw bs)) := by
  refine ⟨⟨?_, ?_⟩, ?_, ?_, ?_⟩
  · intro he
    by_contra hc
    simp [getValue, getAs, hc] at he
  · intro hc
    simp [getValue, getAs, hc]
  · intro hc
    simp [getValue, getAs, hc]
  · intro v
    rfl
  · intro bs
    rfl

/-- Witness for getValue_type_checked: a Boolean accessor on a decoded
Int fails with bad_cast. -/
theorem getValue_type_checked_witness :
    getValue .bool_t (.integer 7) = .error .badCast :=
  (getValue_type_checked .bool_t (.integer 7)).2.1 (by decide)

/-- C8.  Every header form with a declared length or count of zero
decodes to the corresponding empty container (a Raw/Array/Map node with
no elements), not to Nil and not to an error. -/
theorem zero_count_empty_containers (junk : Int) (fuel : Nat) (rest : List Nat) :
    munpack junk (fuel + 1) (0xa0 :: rest) 0 = .ok (some (.raw []), rest, 1) ∧
    munpack junk (fuel + 1) (0x90 :: rest) 0 = .ok (some (.array []), rest, 1) ∧
    munpack junk (fuel + 1) (0x80 :: rest) 0 = .ok (some (.map []), rest, 1) ∧
    munpack junk (fuel + 1) (0xda :: 0 :: 0 :: rest) 0 = .ok (some (.raw []), rest, 1) ∧
    munpack junk (fuel + 1) (0xdc :: 0 :: 0 :: rest) 0 = .ok (some (.array []), rest, 1) ∧
    munpack junk (fuel + 1) (0xde :: 0 :: 0 :: rest) 0 = .ok (some (.map []), rest, 1) ∧
    munpack junk (fuel + 1) (0xdb :: 0 :: 0 :: 0 :: 0 :: rest) 0 =
      .ok (some (.raw []), rest, 1) ∧
    munpack junk (fuel + 1) (0xdd :: 0 :: 0 :: 0 :: 0 :: rest) 0 =
      .ok (some (.array []), rest, 1) ∧
    munpack junk (fuel + 1) (0xdf :: 0 :: 0 :: 0 :: 0 :: rest) 0 =
      .ok (some (.map []), rest, 1) :=
  ⟨rfl, rfl, rfl, rfl, rfl, rfl, rfl, rfl, rfl⟩

/-- C9.  When the declared count or length reads as a negative signed
integer (array16/map16 through int16_t, array32/map32/raw32 through
int32_t), the unpacker returns the null Object sentinel without
signalling an error and without allocating. -/
theorem negative_declared_count_null_sentinel (junk : Int) (fuel : Nat)
    (b0 b1 c0 c1 c2 c3 : Nat) (rest : List Nat)
    (hb0 : b0 ≤ 255) (hb1l : 128 ≤ b1) (hb1 : b1 ≤ 255)
    (hc0 : c0 ≤ 255) (hc1 : c1 ≤ 255) (hc2 : c2 ≤ 255) (hc3l : 128 ≤ c3) (hc3 : c3 ≤ 255) :
    munpack junk (fuel + 1) (0xdc :: b0 :: b1 :: rest) 0 = .ok (none, rest, 0) ∧
    munpack junk (fuel + 1) (0xde :: b0 :: b1 :: rest) 0 = .ok (none, rest, 0) ∧
    munpack junk (fuel + 1) (0xdd :: c0 :: c1 :: c2 :: c3 :: rest) 0 = .ok (none, rest, 0) ∧
    munpack junk (fuel + 1) (0xdf :: c0 :: c1 :: c2 :: c3 :: rest) 0 = .ok (none, rest, 0) ∧
    munpack junk (fuel + 1) (0xdb :: c0 :: c1 :: c2 :: c3 :: rest) 0 = .ok (none, rest, 0) := by
  have h16 : toSigned 16 (leNat [b0, b1]) < 0 := by
    simp only [toSigned, leNat, List.foldr]
    split_ifs <;> omega
  have h32 : toSigned 32 (leNat [c0, c1, c2, c3]) < 0 := by
    simp only [toSigned, leNat, List.foldr]
    split_ifs <;> omega
  refine ⟨?_, ?_, ?_, ?_, ?_⟩
  · rw [munpack_array16]
    simp only [readW, readBytesE]
    simp only [munpackArray]
    rw [if_pos h16]
  · rw [munpack_map16]
    simp only [readW, readBytesE]
    simp only [munpackMap]
    rw [if_pos h16]
  · rw [munpack_array32]
    simp only [readW, readBytesE]
    simp only [munpackArray]
    rw [if_pos h32]
  · rw [munpack_map32]
    simp only [readW, readBytesE]
    simp only [munpackMap]
    rw [if_pos h32]
  · rw [munpack_raw32]
    simp only [readW, readBytesE]
    simp only [munpackRaw]
    rw [if_pos h32]

/-- Witness for negative_declared_count_null_sentinel: array16 count
0x8000 read as -32768 and raw32 length 0x80000000 read as a negative
int32 both return the null sentinel. -/
theorem negative_declared_count_null_sentinel_witness :
    munpack 0 1 (0xdc :: 0 :: 128 :: [9]) 0 = .ok (none, [9], 0) ∧
    munpack 0 1 (0xdb :: 0 :: 0 :: 0 :: 128 :: [9]) 0 = .ok (none, [9], 0) := by
  have h := negative_declared_count_null_sentinel 0 0 0 128 0 0 0 128 [9]
    (by decide) (by decide) (by decide) (by decide) (by decide) (by decide)
    (by decide) (by decide)
  exact ⟨h.1, h.2.2.2.2⟩

/-- C10.  A positive-fixnum byte decodes to a CHAR-tagged node holding
the byte while a negative-fixnum byte decodes to an INTEGER-tagged node
holding its low five bits minus 32; the two tags differ, so no single
typed accessor succeeds on both decoded forms. -/
theorem fixnum_tag_asymmetry (junk : Int) (fuel b : Nat) (rest : List Nat) (x y : Int) :
    (b ≤ 127 → munpack junk (fuel + 1) (b :: rest) 0 =
      .ok (some (.char (b : Int)), rest, 1)) ∧
    (224 ≤ b → b ≤ 255 → munpack junk (fuel + 1) (b :: rest) 0 =
      .ok (some (.integer (((b &&& 0x1f : Nat) : Int) - 32)), rest, 1)) ∧
    tagOf (.char x) = .CHAR ∧
    tagOf (.integer y) = .INTEGER ∧
    object_type.CHAR ≠ object_type.INTEGER ∧
    (∀ T : cxx_type,
      getValue T (.char x) = .error .badCast ∨ getValue T (.integer y) = .error .badCast) := by
  refine ⟨?_, ?_, rfl, rfl, by decide, ?_⟩
  · intro hb
    simpa using munpack_fixnum junk fuel b 0 rest hb
  · intro hb1 hb2
    simpa using munpack_negfixnum junk fuel b 0 rest hb1 hb2
  · intro T
    cases T <;> first | (left; rfl) | (right; rfl)

/-- Witness for fixnum_tag_asymmetry: byte 0x05 decodes to Char 5 and
byte 0xef decodes to Int -17. -/
theorem fixnum_tag_asymmetry_witness :
    munpack 0 1 [0x05] 0 = .ok (some (.char 5), [], 1) ∧
    munpack 0 1 [0xef] 0 = .ok (some (.integer (((0xef &&& 0x1f : Nat) : Int) - 32)), [], 1) :=
  ⟨(fixnum_tag_asymmetry 0 0 0x05 [] 0 0).1 (by decide),
   (fixnum_tag_asymmetry 0 0 0xef [] 0 0).2.1 (by decide) (by decide)⟩

end Msgpack
